import Mathlib

/-!
Shallow embedding of `hickle/helpers.py` (the helpers module of the hickle
HDF5 serialization library) and proofs about its specified behaviour.

The module defines:
  * `PyContainer` — the abstract container protocol (`filter` / `append` /
    `convert`) used while loading objects from an HDF5 tree;
  * `H5NodeFilterProxy` — a proxy that overlays a node's attribute mapping
    with a local `collections.ChainMap({}, h5_node.attrs)`;
  * `no_compression` — a dict subclass dropping compression-related keys;
  * `not_dumpable` — a stub dump method that always raises `RuntimeError`;
  * version-dependent string-attribute helpers (`load_str_attr` and friends).

Python values stored in HDF5 attributes are modelled by `HVal`; attribute
mappings by association lists with Python-dict update semantics; Python
exceptions by the `PyErr` inductive; raising functions return `Except`.
-/

/-- Values that can sit in an HDF5 attribute mapping or dataset in this
model: integers, text strings, raw byte strings, lists of byte strings
(string-list attributes before decoding), lists of strings, and `None`. -/
inductive HVal where
  | int : Int → HVal
  | str : String → HVal
  | bytes : List Nat → HVal
  | bytesList : List (List Nat) → HVal
  | strList : List String → HVal
  | pynone : HVal
deriving DecidableEq, Repr

/-- Python exceptions raised by the modelled code, plus `ProtocolError`,
which the specification's error taxonomy names but which is defined nowhere
in `helpers.py` (no such class exists in the module). -/
inductive PyErr where
  | NotImplementedError : String → PyErr
  | RuntimeError : String → PyErr
  | AttributeError : String → PyErr
  | KeyError : String → PyErr
  | UnicodeDecodeError : String → PyErr
  | ProtocolError : String → PyErr
deriving DecidableEq, Repr

/-- True exactly on the `ProtocolError` variant. -/
def PyErr.isProtocolError : PyErr → Bool
  | .ProtocolError _ => true
  | _ => false

/-- An attribute mapping (a Python dict / h5py AttributeManager): an
association list of key/value pairs in insertion order, keys unique. -/
abbrev AttrMap := List (String × HVal)

/-- Dict lookup: the value bound to `k`, if any (keys being unique, the
first hit is the only one). -/
def lookupAttr : AttrMap → String → Option HVal
  | [], _ => Option.none
  | kv :: rest, k => if kv.1 = k then some kv.2 else lookupAttr rest k

/-- Dict update `d[k] = v`: replaces the value in place when `k` is already
bound, otherwise appends the new pair (Python-dict insertion-order
semantics). -/
def setAttr (m : AttrMap) (k : String) (v : HVal) : AttrMap :=
  if m.any (fun kv => kv.1 = k) then
    m.map (fun kv => if kv.1 = k then (k, v) else kv)
  else
    m ++ [(k, v)]

/-- Python dict construction from an iterable of key/value pairs: start
empty and perform `d[k] = v` for each pair in order (later duplicates
overwrite earlier ones). -/
def dictOfPairs (l : List (String × HVal)) : AttrMap :=
  l.foldl (fun d kv => setAttr d kv.1 kv.2) []

/-- A `collections.ChainMap(overlay, base)` of two attribute mappings, as
built by `H5NodeFilterProxy.__init__`: lookups consult `overlay` first and
fall through to `base`; writes go to `overlay` only. -/
structure ChainMap where
  overlay : AttrMap
  base : AttrMap
deriving DecidableEq, Repr

/-- ChainMap lookup: the overlay shadows the base. -/
def ChainMap.find (m : ChainMap) (k : String) : Option HVal :=
  match lookupAttr m.overlay k with
  | some v => some v
  | Option.none => lookupAttr m.base k

/-- ChainMap write `cm[k] = v`: `collections.ChainMap.__setitem__` stores
into the first map (the overlay); the base map is never touched. -/
def ChainMap.store (m : ChainMap) (k : String) (v : HVal) : ChainMap :=
  ⟨setAttr m.overlay k v, m.base⟩

/-- An HDF5 storage node (h5py Group or Dataset): its persisted attribute
mapping `attrs`, its other Python-level attributes (`shape`, `dtype`,
`name`, ...) as `fields`, its raw content readable through `__getitem__`
as `data`, and its direct children, named and in natural storage order. -/
inductive H5Node where
  | mk : AttrMap → List (String × HVal) → List HVal → List (String × H5Node) → H5Node

/-- Persisted attribute mapping of a node. -/
def H5Node.attrs : H5Node → AttrMap
  | .mk a _ _ _ => a

/-- Other Python-level attributes of the node object. -/
def H5Node.fields : H5Node → List (String × HVal)
  | .mk _ f _ _ => f

/-- Raw stored content, indexed by `__getitem__`. -/
def H5Node.data : H5Node → List HVal
  | .mk _ _ d _ => d

/-- Direct children as `(name, child)` pairs in natural storage order:
what `h_parent.items()` yields. -/
def H5Node.items : H5Node → List (String × H5Node)
  | .mk _ _ _ c => c

/-- A Python value produced by an attribute access on a node or proxy:
either a plain stored value, a node's attribute-manager object, a proxy's
local `ChainMap` object, or a reference to a node object. -/
inductive PyVal where
  | val : HVal → PyVal
  | attrsOf : AttrMap → PyVal
  | chain : ChainMap → PyVal
  | nodeRef : H5Node → PyVal

/-- Attribute access `getattr(h5_node, name)` on a real storage node:
`attrs` returns its attribute manager; any other name is looked up among
the node's Python-level fields, raising `AttributeError` when absent. -/
def H5Node.getattr (n : H5Node) (name : String) : Except PyErr PyVal :=
  if name = "attrs" then Except.ok (PyVal.attrsOf n.attrs)
  else
    match lookupAttr n.fields name with
    | some v => Except.ok (PyVal.val v)
    | Option.none => Except.error (PyErr.AttributeError name)

/-- Raw content read `h5_node[i]`, raising `KeyError` out of range. -/
def H5Node.getitem (n : H5Node) (i : Nat) : Except PyErr HVal :=
  match n.data.get? i with
  | some v => Except.ok v
  | Option.none => Except.error (PyErr.KeyError (toString i))

/-- The `H5NodeFilterProxy` state: the wrapped node `_h5_node` and the
local `attrs` ChainMap. Field names follow `__slots__` of the class. -/
structure H5NodeFilterProxy where
  _h5_node : H5Node
  attrs : ChainMap

/-- Constructor `H5NodeFilterProxy(h5_node)`: stores the node and builds
`collections.ChainMap({}, h5_node.attrs)` — an empty overlay over the
node's persisted attributes. -/
def H5NodeFilterProxy.init (h5_node : H5Node) : H5NodeFilterProxy :=
  ⟨h5_node, ⟨[], h5_node.attrs⟩⟩

/-- The proxy's `__getattribute__`: for `attrs` and `_h5_node` it returns
the local slot; every other name is redirected to the wrapped node via
`getattr(_h5_node, name)`. -/
def H5NodeFilterProxy.getattribute (p : H5NodeFilterProxy) (name : String) :
    Except PyErr PyVal :=
  if name = "attrs" then Except.ok (PyVal.chain p.attrs)
  else if name = "_h5_node" then Except.ok (PyVal.nodeRef p._h5_node)
  else p._h5_node.getattr name

/-- The proxy's `__getitem__`: forwarded verbatim to the wrapped node's
`__getitem__`. -/
def H5NodeFilterProxy.getitem (p : H5NodeFilterProxy) (i : Nat) :
    Except PyErr HVal :=
  p._h5_node.getitem i

/-- Writing one attribute through the proxy's overlay,
`proxy.attrs[k] = v`: `__getattribute__` hands back the local ChainMap and
`ChainMap.__setitem__` stores into its overlay; the wrapped node is not
touched. -/
def H5NodeFilterProxy.attrsStore (p : H5NodeFilterProxy) (k : String)
    (v : HVal) : H5NodeFilterProxy :=
  ⟨p._h5_node, p.attrs.store k v⟩

/-- Reading one attribute through the proxy, `proxy.attrs[k]`: ChainMap
lookup, overlay first, then the node's persisted attributes. -/
def H5NodeFilterProxy.attrsFind (p : H5NodeFilterProxy) (k : String) :
    Option HVal :=
  p.attrs.find k

/-- A sequence of attribute writes through the proxy's overlay, performed
left to right. -/
def applyOverlayWrites (p : H5NodeFilterProxy) (ws : List (String × HVal)) :
    H5NodeFilterProxy :=
  ws.foldl (fun q kv => q.attrsStore kv.1 kv.2) p

/-- The abstract `PyContainer` base class, parameterized by the type `α` of
decoded child objects. Slots follow the Python class: `base_type`,
`object_type`, the node's attribute set `_h5_attrs`, and the accumulating
`_content`. The class carries no collecting/finalized flag. -/
structure PyContainer (α : Type) where
  base_type : String
  object_type : String
  _h5_attrs : AttrMap
  _content : List α

/-- `PyContainer.__init__(h5_attrs, base_type, object_type, _content=None)`:
stores the three arguments and sets `_content` to the passed container or a
fresh empty list. -/
def PyContainer.init (h5_attrs : AttrMap) (base_type : String)
    (object_type : String) (c : Option (List α)) : PyContainer α :=
  ⟨base_type, object_type, h5_attrs, c.getD []⟩

/-- `PyContainer.filter(h_parent)`: the default implementation yields from
`h_parent.items()` — every direct child, unchanged, in storage order. -/
def PyContainer.filter (_c : PyContainer α) (h_parent : H5Node) :
    List (String × H5Node) :=
  h_parent.items

/-- `PyContainer.append(name, item, h5_attrs)`: the default implementation
executes `self._content.append(item)`, ignoring `name` and `h5_attrs`. -/
def PyContainer.append (c : PyContainer α) (_name : String) (item : α)
    (_h5_attrs : AttrMap) : PyContainer α :=
  ⟨c.base_type, c.object_type, c._h5_attrs, c._content ++ [item]⟩

/-- `PyContainer.convert()` in the base class: unconditionally raises
`NotImplementedError("convert method must be implemented")`. It reads no
state and mutates nothing. -/
def PyContainer.convert (_c : PyContainer α) : Except PyErr PyVal :=
  Except.error (PyErr.NotImplementedError "convert method must be implemented")

/-- A sequence of `append` calls `append(name_i, x_i, a_i)` performed left
to right on a container. -/
def appendAll (c : PyContainer α) (xs : List (String × α × AttrMap)) :
    PyContainer α :=
  xs.foldl (fun d t => d.append t.1 t.2.1 t.2.2) c

/-- The key set removed by `no_compression`: `{"compression", "shuffle",
"compression_opts", "chunks", "fletcher32", "scaleoffset"}`. -/
def compressionKeys : List String :=
  ["compression", "shuffle", "compression_opts", "chunks", "fletcher32",
   "scaleoffset"]

/-- `no_compression(mapping)`: builds a dict from the pairs of the input
iterable (for a dict input, its `items()` in order) whose key is not among
`compressionKeys`. -/
def no_compression (mapping : List (String × HVal)) : AttrMap :=
  dictOfPairs
    (mapping.filter (fun kv => ¬ compressionKeys.contains kv.1))

/-- `not_dumpable(py_obj, h_group, name, **kwargs)`: unconditionally raises
`RuntimeError("types defined by loaders not dumpable")`; in particular it
never returns a value and leaves `h_group` untouched (the Python body is a
single `raise` statement). -/
def not_dumpable (_py_obj : PyVal) (_h_group : H5Node) (_name : String)
    (_kwargs : List (String × PyVal)) : Except PyErr PyVal :=
  Except.error (PyErr.RuntimeError "types defined by loaders not dumpable")

/-- True when `b` is a UTF-8 continuation byte (`0x80 ≤ b < 0xC0`). -/
def isContByte (b : Nat) : Bool :=
  decide (0x80 ≤ b) && decide (b < 0xC0)

/-- Strict UTF-8 decoding of a byte sequence into characters, as Python's
`bytes.decode("utf8")`: rejects stray continuation bytes, overlong forms,
surrogate code points and code points beyond `U+10FFFF`. -/
def utf8DecodeChars : List Nat → Option (List Char)
  | [] => some []
  | b :: rest =>
    if b < 0x80 then
      (utf8DecodeChars rest).map (fun cs => Char.ofNat b :: cs)
    else if b < 0xC2 then
      Option.none
    else if b < 0xE0 then
      match rest with
      | b1 :: rest1 =>
        if isContByte b1 then
          (utf8DecodeChars rest1).map
            (fun cs => Char.ofNat ((b - 0xC0) * 0x40 + (b1 - 0x80)) :: cs)
        else Option.none
      | [] => Option.none
    else if b < 0xF0 then
      match rest with
      | b1 :: b2 :: rest2 =>
        if isContByte b1 && isContByte b2 then
          let cp := (b - 0xE0) * 0x1000 + (b1 - 0x80) * 0x40 + (b2 - 0x80)
          if cp < 0x800 ∨ (0xD800 ≤ cp ∧ cp < 0xE000) then Option.none
          else (utf8DecodeChars rest2).map (fun cs => Char.ofNat cp :: cs)
        else Option.none
      | _ => Option.none
    else if b < 0xF5 then
      match rest with
      | b1 :: b2 :: b3 :: rest3 =>
        if isContByte b1 && isContByte b2 && isContByte b3 then
          let cp := (b - 0xF0) * 0x40000 + (b1 - 0x80) * 0x1000 +
            (b2 - 0x80) * 0x40 + (b3 - 0x80)
          if cp < 0x10000 ∨ 0x10FFFF < cp then Option.none
          else (utf8DecodeChars rest3).map (fun cs => Char.ofNat cp :: cs)
        else Option.none
      | _ => Option.none
    else Option.none

/-- ASCII decoding of a byte sequence, as Python's
`bytes.decode("ascii")`: every byte must be below `0x80`. -/
def asciiDecodeChars : List Nat → Option (List Char)
  | [] => some []
  | b :: rest =>
    if b < 0x80 then (asciiDecodeChars rest).map (fun cs => Char.ofNat b :: cs)
    else Option.none

/-- `bs.decode("utf8")` on a byte string, as a String. -/
def pyDecodeUtf8 (bs : List Nat) : Option String :=
  (utf8DecodeChars bs).map (fun cs => String.mk cs)

/-- `bs.decode("ascii")` on a byte string, as a String. -/
def pyDecodeAscii (bs : List Nat) : Option String :=
  (asciiDecodeChars bs).map (fun cs => String.mk cs)

/-- Looking up `k` after a dict update `d[k] = v` (replace-in-place branch)
yields the new value. -/
theorem lookupAttr_map_set (m : AttrMap) (k : String) (v : HVal)
    (h : m.any (fun kv => kv.1 = k) = true) :
    lookupAttr (m.map (fun kv => if kv.1 = k then (k, v) else kv)) k = some v := by
  induction m with
  | nil => simp at h
  | cons kv rest ih =>
    by_cases hk : kv.1 = k
    · simp [lookupAttr, hk]
    · have hrest : rest.any (fun kv => kv.1 = k) = true := by
        simp only [List.any_cons, Bool.or_eq_true, decide_eq_true_eq] at h
        exact h.resolve_left hk
      simp [lookupAttr, hk, ih hrest]

/-- Looking up `k` after a dict update `d[k] = v` (fresh-key branch) yields
the new value. -/
theorem lookupAttr_append_new (m : AttrMap) (k : String) (v : HVal)
    (h : m.any (fun kv => kv.1 = k) = false) :
    lookupAttr (m ++ [(k, v)]) k = some v := by
  induction m with
  | nil => simp [lookupAttr]
  | cons kv rest ih =>
    simp only [List.any_cons, Bool.or_eq_false_iff] at h
    have h1 : kv.1 ≠ k := by simpa using h.1
    simp [lookupAttr, h1, ih h.2]

/-- Reading back the key just written by `setAttr`. -/
theorem lookupAttr_setAttr_self (m : AttrMap) (k : String) (v : HVal) :
    lookupAttr (setAttr m k v) k = some v := by
  unfold setAttr
  by_cases h : m.any (fun kv => kv.1 = k) = true
  · simpa [h] using lookupAttr_map_set m k v h
  · have h' : m.any (fun kv => kv.1 = k) = false := by
      cases hb : m.any (fun kv => kv.1 = k) with
      | false => rfl
      | true => exact absurd hb h
    simpa [h'] using lookupAttr_append_new m k v h'

/-- Replacing the value at key `k1` in place does not disturb lookups of a
different key `k`. -/
theorem lookupAttr_map_subst_other (m : AttrMap) (k1 k : String) (v : HVal)
    (hne : k1 ≠ k) :
    lookupAttr (m.map (fun kv => if kv.1 = k1 then (k1, v) else kv)) k
      = lookupAttr m k := by
  induction m with
  | nil => rfl
  | cons kv rest ih =>
    by_cases hk : kv.1 = k1
    · simp [lookupAttr, hk, hne, ih]
    · simp only [List.map_cons, if_neg hk, lookupAttr, ih]

/-- Appending a pair with a different key `k1` does not disturb lookups of
key `k`. -/
theorem lookupAttr_append_other (m : AttrMap) (k1 k : String) (v : HVal)
    (hne : k1 ≠ k) :
    lookupAttr (m ++ [(k1, v)]) k = lookupAttr m k := by
  induction m with
  | nil => simp [lookupAttr, hne]
  | cons kv rest ih =>
    by_cases hkk : kv.1 = k
    · simp [lookupAttr, hkk]
    · simp [lookupAttr, hkk, ih]

/-- `setAttr` does not disturb lookups of other keys. -/
theorem lookupAttr_setAttr_other (m : AttrMap) (k1 k : String) (v : HVal)
    (hne : k1 ≠ k) :
    lookupAttr (setAttr m k1 v) k = lookupAttr m k := by
  unfold setAttr
  by_cases h : m.any (fun kv => kv.1 = k1) = true
  · simpa [h] using lookupAttr_map_subst_other m k1 k v hne
  · have h' : m.any (fun kv => kv.1 = k1) = false := by
      cases hb : m.any (fun kv => kv.1 = k1) with
      | false => rfl
      | true => exact absurd hb h
    simpa [h'] using lookupAttr_append_other m k1 k v hne

/-- A sequence of overlay writes never changes which node the proxy
wraps. -/
theorem applyOverlayWrites_node (ws : List (String × HVal))
    (p : H5NodeFilterProxy) :
    (applyOverlayWrites p ws)._h5_node = p._h5_node := by
  induction ws generalizing p with
  | nil => rfl
  | cons kv rest ih =>
    simpa [applyOverlayWrites, List.foldl_cons] using
      ih (p.attrsStore kv.1 kv.2)

/-- A sequence of overlay writes never changes the base layer of the
proxy's ChainMap. -/
theorem applyOverlayWrites_base (ws : List (String × HVal))
    (p : H5NodeFilterProxy) :
    (applyOverlayWrites p ws).attrs.base = p.attrs.base := by
  induction ws generalizing p with
  | nil => rfl
  | cons kv rest ih =>
    simpa [applyOverlayWrites, List.foldl_cons] using
      ih (p.attrsStore kv.1 kv.2)

/-- Overlay writes for keys other than `k` leave the overlay's binding of
`k` unchanged. -/
theorem applyOverlayWrites_overlay_other (ws : List (String × HVal))
    (p : H5NodeFilterProxy) (k : String) (hk : k ∉ ws.map Prod.fst) :
    lookupAttr (applyOverlayWrites p ws).attrs.overlay k
      = lookupAttr p.attrs.overlay k := by
  induction ws generalizing p with
  | nil => rfl
  | cons kv rest ih =>
    simp only [List.map_cons, List.mem_cons] at hk
    push_neg at hk
    have step : lookupAttr (p.attrsStore kv.1 kv.2).attrs.overlay k
        = lookupAttr p.attrs.overlay k := by
      simpa [H5NodeFilterProxy.attrsStore, ChainMap.store] using
        lookupAttr_setAttr_other p.attrs.overlay kv.1 k kv.2
          (fun he => hk.1 he.symm)
    calc lookupAttr (applyOverlayWrites p (kv :: rest)).attrs.overlay k
        = lookupAttr (applyOverlayWrites (p.attrsStore kv.1 kv.2) rest).attrs.overlay k := by
          simp [applyOverlayWrites, List.foldl_cons]
      _ = lookupAttr (p.attrsStore kv.1 kv.2).attrs.overlay k := ih _ hk.2
      _ = lookupAttr p.attrs.overlay k := step

/-- C1: after an `H5NodeFilterProxy` wrapping a storage node has been used
(any sequence of attribute writes performed through the proxy's `attrs`
overlay) and discarded, the wrapped node is the very node the proxy was
built from — in particular every one of its real persisted attributes
still holds exactly the value it held before the proxy was created. -/
theorem h5NodeFilterProxy_discard_frame (n : H5Node)
    (ws : List (String × HVal)) :
    (applyOverlayWrites (H5NodeFilterProxy.init n) ws)._h5_node = n ∧
    ∀ k, lookupAttr
        ((applyOverlayWrites (H5NodeFilterProxy.init n) ws)._h5_node).attrs k
      = lookupAttr n.attrs k := by
  refine ⟨applyOverlayWrites_node ws _, fun k => ?_⟩
  rw [applyOverlayWrites_node]
  rfl

/-- C2: reads through the proxy's `attrs` return the locally overridden
value when one has been written (first conjunct: a read of `k` right after
writing `v` at `k` yields `v`), otherwise fall through to the wrapped
node's persisted attribute value (last conjunct, for a key `k2` no write
touched); and writes land only in the local overlay: the ChainMap's base
layer and the wrapped node's attribute mapping are unchanged by any
sequence of writes (middle conjuncts). -/
theorem h5NodeFilterProxy_overlay_semantics (n : H5Node)
    (ws : List (String × HVal)) (k k2 : String) (v : HVal)
    (hk2 : k2 ∉ ws.map Prod.fst) :
    ((applyOverlayWrites (H5NodeFilterProxy.init n) ws).attrsStore k v).attrsFind k
      = some v ∧
    ((applyOverlayWrites (H5NodeFilterProxy.init n) ws).attrsStore k v).attrs.base
      = n.attrs ∧
    ((applyOverlayWrites (H5NodeFilterProxy.init n) ws).attrsStore k v)._h5_node.attrs
      = n.attrs ∧
    (applyOverlayWrites (H5NodeFilterProxy.init n) ws).attrsFind k2
      = lookupAttr n.attrs k2 := by
  refine ⟨?_, ?_, ?_, ?_⟩
  · simp [H5NodeFilterProxy.attrsFind, H5NodeFilterProxy.attrsStore,
      ChainMap.find, ChainMap.store, lookupAttr_setAttr_self]
  · have := applyOverlayWrites_base ws (H5NodeFilterProxy.init n)
    simpa [H5NodeFilterProxy.attrsStore, ChainMap.store,
      H5NodeFilterProxy.init] using this
  · rw [show ((applyOverlayWrites (H5NodeFilterProxy.init n) ws).attrsStore k v)._h5_node
        = (applyOverlayWrites (H5NodeFilterProxy.init n) ws)._h5_node from rfl,
      applyOverlayWrites_node]
    rfl
  · have hov := applyOverlayWrites_overlay_other ws (H5NodeFilterProxy.init n) k2 hk2
    have hb := applyOverlayWrites_base ws (H5NodeFilterProxy.init n)
    simp only [H5NodeFilterProxy.attrsFind, ChainMap.find, hov, hb]
    simp [H5NodeFilterProxy.init, lookupAttr]

/-- A concrete storage node used by the closed witness theorems: two
persisted attributes, one Python-level field, two raw data entries, no
children. -/
def nodeExample : H5Node :=
  H5Node.mk [("base_type", HVal.bytes [108, 105, 115, 116]), ("n", HVal.int 2)]
    [("shape", HVal.int 2)] [HVal.int 10, HVal.int 11] []

/-- Witness for C2 at a concrete node, write sequence, and keys. -/
theorem h5NodeFilterProxy_overlay_semantics_witness :
    ((applyOverlayWrites (H5NodeFilterProxy.init nodeExample)
        [("type", HVal.str "tuple")]).attrsStore "base_type"
          (HVal.str "tuple")).attrsFind "base_type"
      = some (HVal.str "tuple") ∧
    ((applyOverlayWrites (H5NodeFilterProxy.init nodeExample)
        [("type", HVal.str "tuple")]).attrsStore "base_type"
          (HVal.str "tuple")).attrs.base = nodeExample.attrs ∧
    ((applyOverlayWrites (H5NodeFilterProxy.init nodeExample)
        [("type", HVal.str "tuple")]).attrsStore "base_type"
          (HVal.str "tuple"))._h5_node.attrs = nodeExample.attrs ∧
    (applyOverlayWrites (H5NodeFilterProxy.init nodeExample)
        [("type", HVal.str "tuple")]).attrsFind "n"
      = lookupAttr nodeExample.attrs "n" :=
  h5NodeFilterProxy_overlay_semantics nodeExample [("type", HVal.str "tuple")]
    "base_type" "n" (HVal.str "tuple") (by decide)

/-- C5: the default `PyContainer.filter` yields exactly the parent node's
direct children as `(name, child_node)` pairs in natural storage order —
same list, same length, same pair at every position (nothing added,
removed, renamed or reordered). -/
theorem pyContainer_filter_default {α : Type} (c : PyContainer α)
    (h_parent : H5Node) :
    c.filter h_parent = h_parent.items ∧
    (c.filter h_parent).length = h_parent.items.length ∧
    ∀ i, (c.filter h_parent).get? i = h_parent.items.get? i :=
  ⟨rfl, rfl, fun _ => rfl⟩

/-- Folding `append` over a list of `(name, item, attrs)` triples extends
`_content` by exactly the items, in order. -/
theorem appendAll_content {α : Type} (xs : List (String × α × AttrMap))
    (c : PyContainer α) :
    (appendAll c xs)._content = c._content ++ xs.map (fun t => t.2.1) := by
  induction xs generalizing c with
  | nil => simp [appendAll]
  | cons t rest ih =>
    rw [show appendAll c (t :: rest)
        = appendAll (c.append t.1 t.2.1 t.2.2) rest from rfl,
      ih]
    simp [PyContainer.append, List.append_assoc]

/-- C6: starting from a container built with the default content, a
sequence of calls `append(name_1, x_1, a_1), ..., append(name_n, x_n, a_n)`
leaves `_content = [x_1, ..., x_n]` (first conjunct), and the `name` and
child-attribute arguments have no effect on the default accumulation: two
`append` calls differing only in those arguments produce the same container
(second conjunct). -/
theorem pyContainer_append_accumulates {α : Type} (h5_attrs : AttrMap)
    (bt ot : String) (xs : List (String × α × AttrMap)) (c : PyContainer α)
    (name1 name2 : String) (x : α) (a1 a2 : AttrMap) :
    (appendAll (PyContainer.init h5_attrs bt ot Option.none) xs)._content
      = xs.map (fun t => t.2.1) ∧
    c.append name1 x a1 = c.append name2 x a2 := by
  constructor
  · simpa [PyContainer.init] using
      appendAll_content xs (PyContainer.init h5_attrs bt ot Option.none)
  · rfl

/-- C7: for every name other than `attrs` and `_h5_node`, the proxy's
`__getattribute__` returns exactly what `getattr` on the wrapped node
returns (both successes and `AttributeError`s, unmodified), and the
proxy's `__getitem__` raw-content read returns exactly the wrapped node's
`__getitem__` result. -/
theorem h5NodeFilterProxy_forwards (p : H5NodeFilterProxy) (name : String)
    (i : Nat) (h1 : name ≠ "attrs") (h2 : name ≠ "_h5_node") :
    p.getattribute name = p._h5_node.getattr name ∧
    p.getitem i = p._h5_node.getitem i := by
  refine ⟨?_, rfl⟩
  simp [H5NodeFilterProxy.getattribute, h1, h2]

/-- Witness for C7 at a concrete proxy, the node-level name `shape`, and
index 0. -/
theorem h5NodeFilterProxy_forwards_witness :
    (H5NodeFilterProxy.init nodeExample).getattribute "shape"
      = (H5NodeFilterProxy.init nodeExample)._h5_node.getattr "shape" ∧
    (H5NodeFilterProxy.init nodeExample).getitem 0
      = (H5NodeFilterProxy.init nodeExample)._h5_node.getitem 0 :=
  h5NodeFilterProxy_forwards (H5NodeFilterProxy.init nodeExample) "shape" 0
    (by decide) (by decide)

/-- C10: `not_dumpable` raises `RuntimeError` on every combination of
arguments; it never returns a value (and, being a single `raise`
statement, performs no node creation on `h_group`). -/
theorem not_dumpable_always_raises (py_obj : PyVal) (h_group : H5Node)
    (name : String) (kwargs : List (String × PyVal)) :
    not_dumpable py_obj h_group name kwargs
      = Except.error (PyErr.RuntimeError "types defined by loaders not dumpable") ∧
    ∀ v, not_dumpable py_obj h_group name kwargs ≠ Except.ok v :=
  ⟨rfl, fun _ h => Except.noConfusion h⟩

/-- Counterexample to C3 at a concrete container: `PyContainer` keeps no
collecting/finalized flag, so calling `convert()` (which, being the base
implementation, only raises `NotImplementedError` and leaves the container
state untouched) does not forbid further use — the subsequent
`append("x", 5, {})` on that same state succeeds and extends `_content`
to `[5]`; and a repeated `convert()` call returns the very same
`NotImplementedError`, which is not a `ProtocolError`. -/
theorem pyContainer_state_machine_counterexample :
    (PyContainer.init [] "b" "o" Option.none : PyContainer Nat).convert
      = Except.error
          (PyErr.NotImplementedError "convert method must be implemented") ∧
    ((PyContainer.init [] "b" "o" Option.none : PyContainer Nat).append "x" 5
        [])._content = [5] ∧
    PyErr.isProtocolError
        (PyErr.NotImplementedError "convert method must be implemented")
      = false :=
  ⟨rfl, rfl, rfl⟩

/-- C3 as amended: `PyContainer` enforces no collecting/finalized state
machine. On every container state, `append` succeeds and extends
`_content` by the passed item (calling `convert` first cannot prevent
this: `convert` reads no state and changes none), and `convert` — first
call or repeated — always returns the same `NotImplementedError`, which is
not a `ProtocolError` (no `ProtocolError` class exists in the module). -/
theorem pyContainer_no_state_machine {α : Type} (c : PyContainer α)
    (name : String) (x : α) (a : AttrMap) :
    (c.append name x a)._content = c._content ++ [x] ∧
    c.convert
      = Except.error
          (PyErr.NotImplementedError "convert method must be implemented") ∧
    PyErr.isProtocolError
        (PyErr.NotImplementedError "convert method must be implemented")
      = false :=
  ⟨rfl, rfl, rfl⟩

/-- Counterexample to C4 at a concrete container: a container class not
implementing `convert()` inherits the base `PyContainer.convert`, and the
`NotImplementedError`-class failure is raised exactly when `convert()` is
called during a load — not at registration time (the module contains no
registration-time capability check). -/
theorem pyContainer_convert_call_time_counterexample :
    (PyContainer.init [("base_type", HVal.bytes [108, 105, 115, 116])]
        "list" "list" Option.none : PyContainer Nat).convert
      = Except.error
          (PyErr.NotImplementedError "convert method must be implemented") :=
  rfl

/-- C4 as amended: failing to implement `convert()` is detected only at
call time — on every container state carrying the inherited base
implementation, calling `convert()` raises
`NotImplementedError("convert method must be implemented")`; no capability
check at registration time exists in this module. -/
theorem pyContainer_convert_raises_at_call {α : Type} (c : PyContainer α) :
    c.convert
      = Except.error
          (PyErr.NotImplementedError "convert method must be implemented") :=
  rfl

/-- Decoding each byte string of a list with the given decoder, as the
list comprehensions `[value.decode(...) for value in attrs[name]]` do;
fails when any element fails to decode. -/
def decodeEach (dec : List Nat → Option String) :
    List (List Nat) → Option (List String)
  | [] => some []
  | bs :: rest =>
    match dec bs with
    | some s => (decodeEach dec rest).map (fun ss => s :: ss)
    | Option.none => Option.none

/-- `load_str_list_attr_ascii(attrs, name)` as defined under h5py < 3:
`[value.decode("ascii") for value in attrs[name]]`. -/
def load_str_list_attr_ascii (attrs : AttrMap) (name : String) :
    Except PyErr (List String) :=
  match lookupAttr attrs name with
  | some (HVal.bytesList bss) =>
    match decodeEach pyDecodeAscii bss with
    | some ss => Except.ok ss
    | Option.none => Except.error (PyErr.UnicodeDecodeError "ascii")
  | some _ => Except.error (PyErr.AttributeError "decode")
  | Option.none => Except.error (PyErr.KeyError name)

/-- `load_str_list_attr(attrs, name)` as defined under h5py < 3:
`[value.decode("utf8") for value in attrs[name]]`. -/
def load_str_list_attr (attrs : AttrMap) (name : String) :
    Except PyErr (List String) :=
  match lookupAttr attrs name with
  | some (HVal.bytesList bss) =>
    match decodeEach pyDecodeUtf8 bss with
    | some ss => Except.ok ss
    | Option.none => Except.error (PyErr.UnicodeDecodeError "utf8")
  | some _ => Except.error (PyErr.AttributeError "decode")
  | Option.none => Except.error (PyErr.KeyError name)

/-- `load_str_attr_ascii(attrs, name)` as defined under h5py < 3:
`attrs[name].decode("ascii")`. -/
def load_str_attr_ascii (attrs : AttrMap) (name : String) :
    Except PyErr String :=
  match lookupAttr attrs name with
  | some (HVal.bytes bs) =>
    match pyDecodeAscii bs with
    | some s => Except.ok s
    | Option.none => Except.error (PyErr.UnicodeDecodeError "ascii")
  | some _ => Except.error (PyErr.AttributeError "decode")
  | Option.none => Except.error (PyErr.KeyError name)

/-- `load_str_attr(attrs, name)` as defined under h5py < 3:
`attrs[name].decode("utf8")`. -/
def load_str_attr (attrs : AttrMap) (name : String) :
    Except PyErr String :=
  match lookupAttr attrs name with
  | some (HVal.bytes bs) =>
    match pyDecodeUtf8 bs with
    | some s => Except.ok s
    | Option.none => Except.error (PyErr.UnicodeDecodeError "utf8")
  | some _ => Except.error (PyErr.AttributeError "decode")
  | Option.none => Except.error (PyErr.KeyError name)

/-- The helper a module-level string-attribute name can be bound to:
`h5py.AttributeManager.get` (h5py ≥ 3 branch) or one of the four decoding
functions (h5py < 3 branch). -/
inductive StrAttrHelper where
  | managerGet
  | listAsciiDecoder
  | listUtf8Decoder
  | asciiDecoder
  | utf8Decoder
deriving DecidableEq, Repr

/-- The module-level bindings of the four string-attribute helper names
produced by executing the version branch at the bottom of `helpers.py`;
`Option.none` means the name is never assigned (using it raises
`NameError`). -/
structure StrAttrBindings where
  load_str_list_attr_ascii : Option StrAttrHelper
  load_str_list_attr : Option StrAttrHelper
  load_str_attr_ascii : Option StrAttrHelper
  load_str_attr : Option StrAttrHelper
deriving DecidableEq, Repr

/-- The version branch of `helpers.py` lines 369–380, transcribed
statement by statement. Under `h5.version.version_tuple[0] >= 3` the two
assignment statements are
`load_str_list_attr_ascii = load_str_list_attr = h5.AttributeManager.get`
and
`load_str_attr_ascii = load_str_list_attr = h5.AttributeManager.get`:
the second one re-assigns `load_str_list_attr` and the name
`load_str_attr` is never bound in this branch. Under h5py < 3 the branch
defines all four names as the decoding functions. -/
def helperBindings (h5_major : Nat) : StrAttrBindings :=
  if h5_major ≥ 3 then
    ⟨some StrAttrHelper.managerGet, some StrAttrHelper.managerGet,
     some StrAttrHelper.managerGet, Option.none⟩
  else
    ⟨some StrAttrHelper.listAsciiDecoder, some StrAttrHelper.listUtf8Decoder,
     some StrAttrHelper.asciiDecoder, some StrAttrHelper.utf8Decoder⟩

/-- C8, evaluated at the failing branch: under h5py major version ≥ 3 the
version branch never binds the name `load_str_attr` (its second assignment
statement re-assigns `load_str_list_attr` instead), so only three of the
four helpers exist there — refuting "all four helper functions are defined
under every supported h5py version branch". Under h5py < 3 all four names
are defined, and there they do decode byte attributes as claimed:
`load_str_attr` decodes UTF-8 (including multi-byte sequences),
`load_str_attr_ascii` decodes ASCII and rejects non-ASCII bytes, and the
list variants decode element-wise. -/
theorem load_str_attr_version_branch_bug :
    (helperBindings 3).load_str_attr = Option.none ∧
    (helperBindings 3).load_str_list_attr = some StrAttrHelper.managerGet ∧
    (helperBindings 3).load_str_list_attr_ascii
      = some StrAttrHelper.managerGet ∧
    (helperBindings 3).load_str_attr_ascii = some StrAttrHelper.managerGet ∧
    helperBindings 2
      = ⟨some StrAttrHelper.listAsciiDecoder,
         some StrAttrHelper.listUtf8Decoder,
         some StrAttrHelper.asciiDecoder, some StrAttrHelper.utf8Decoder⟩ ∧
    load_str_attr [("k", HVal.bytes [104, 105])] "k" = Except.ok "hi" ∧
    load_str_attr [("k", HVal.bytes [0xC3, 0xA9])] "k" = Except.ok "é" ∧
    load_str_attr_ascii [("k", HVal.bytes [104, 105])] "k" = Except.ok "hi" ∧
    load_str_attr_ascii [("k", HVal.bytes [0xC3, 0xA9])] "k"
      = Except.error (PyErr.UnicodeDecodeError "ascii") ∧
    load_str_list_attr [("k", HVal.bytesList [[104], [0xC3, 0xA9]])] "k"
      = Except.ok ["h", "é"] ∧
    load_str_list_attr_ascii [("k", HVal.bytesList [[104], [105]])] "k"
      = Except.ok ["h", "i"] :=
  ⟨by decide, by decide, by decide, by decide, by decide, by rfl, by rfl,
   by rfl, by rfl, by rfl, by rfl⟩

/-- `setAttr` on a key absent from the dict appends the new pair. -/
theorem setAttr_of_not_mem (m : AttrMap) (k : String) (v : HVal)
    (h : k ∉ m.map Prod.fst) : setAttr m k v = m ++ [(k, v)] := by
  unfold setAttr
  rw [if_neg]
  intro hany
  rw [List.any_eq_true] at hany
  obtain ⟨kv, hmem, hk⟩ := hany
  exact h (List.mem_map.mpr ⟨kv, hmem, of_decide_eq_true hk⟩)

/-- Building a dict by repeated `setAttr` from pairs whose keys are new and
mutually distinct just concatenates them. -/
theorem foldl_setAttr_nodup (l : List (String × HVal)) (d : AttrMap)
    (h : (d.map Prod.fst ++ l.map Prod.fst).Nodup) :
    l.foldl (fun d kv => setAttr d kv.1 kv.2) d = d ++ l := by
  induction l generalizing d with
  | nil => simp
  | cons kv rest ih =>
    have hdisj := (List.nodup_append.mp h).2.2
    have hk : kv.1 ∉ d.map Prod.fst := fun hmem =>
      hdisj hmem (by simp)
    have hset : setAttr d kv.1 kv.2 = d ++ [kv] := by
      simpa using setAttr_of_not_mem d kv.1 kv.2 hk
    have hnext : ((d ++ [kv]).map Prod.fst ++ rest.map Prod.fst).Nodup := by
      simpa [List.append_assoc] using h
    calc (kv :: rest).foldl (fun d kv => setAttr d kv.1 kv.2) d
        = rest.foldl (fun d kv => setAttr d kv.1 kv.2) (setAttr d kv.1 kv.2) := by
          rw [List.foldl_cons]
      _ = rest.foldl (fun d kv => setAttr d kv.1 kv.2) (d ++ [kv]) := by
          rw [hset]
      _ = (d ++ [kv]) ++ rest := ih (d ++ [kv]) hnext
      _ = d ++ kv :: rest := by simp

/-- A pair list with mutually distinct keys is its own dict. -/
theorem dictOfPairs_eq_self (l : List (String × HVal))
    (h : (l.map Prod.fst).Nodup) : dictOfPairs l = l := by
  simpa [dictOfPairs] using foldl_setAttr_nodup l [] (by simpa using h)

/-- C9: for an input mapping with unique keys (a dict, or an iterable of
pairs with no duplicate key), `no_compression` is exactly the input with
the pairs whose key lies in
`{compression, shuffle, compression_opts, chunks, fletcher32, scaleoffset}`
removed — retained pairs unchanged and in order (first conjunct) — and the
result contains no key from that set (second conjunct). -/
theorem no_compression_filters (mapping : List (String × HVal))
    (h : (mapping.map Prod.fst).Nodup) :
    no_compression mapping
      = mapping.filter (fun kv => ¬ compressionKeys.contains kv.1) ∧
    (no_compression mapping).all
        (fun kv => ¬ compressionKeys.contains kv.1) = true := by
  have hsl : (mapping.filter
      (fun kv => ¬ compressionKeys.contains kv.1)).Sublist mapping :=
    List.filter_sublist mapping
  have hsub : ((mapping.filter
      (fun kv => ¬ compressionKeys.contains kv.1)).map Prod.fst).Nodup :=
    h.sublist (hsl.map Prod.fst)
  have h1 : no_compression mapping
      = mapping.filter (fun kv => ¬ compressionKeys.contains kv.1) := by
    unfold no_compression
    exact dictOfPairs_eq_self _ hsub
  refine ⟨h1, ?_⟩
  rw [h1, List.all_eq_true]
  intro kv hmem
  exact (List.mem_filter.mp hmem).2

/-- Witness for C9 at a concrete three-entry mapping mixing compression
and non-compression keys. -/
theorem no_compression_filters_witness :
    no_compression [("compression", HVal.str "gzip"), ("dtype", HVal.str "f8"),
        ("shuffle", HVal.int 1)]
      = [("compression", HVal.str "gzip"), ("dtype", HVal.str "f8"),
          ("shuffle", HVal.int 1)].filter
          (fun kv => ¬ compressionKeys.contains kv.1) ∧
    (no_compression [("compression", HVal.str "gzip"),
        ("dtype", HVal.str "f8"), ("shuffle", HVal.int 1)]).all
        (fun kv => ¬ compressionKeys.contains kv.1) = true :=
  no_compression_filters
    [("compression", HVal.str "gzip"), ("dtype", HVal.str "f8"),
     ("shuffle", HVal.int 1)] (by decide)
